import Mathlib

/-!
# Verification of the dbml-entity transpiler

A shallow embedding of the transpilation engine of `dbml-entity`
(`src/transpiler/mod.rs` together with the relation AST of
`src/ast/refs.rs`), which translates a resolved semantic database schema
(tables, columns, indexes, relations, enums) into sea-orm entity modules.

The embedding follows the Rust source.  Collaborators that the source
calls but whose code is not part of the repository snapshot (the
`Codegen`/`Block` emitter of the `generator` module, `get_table_refs`,
the `to_col_type`/`to_rust_type` type-mapping traits, and the case
conversion of the `inflector` crate) are modelled from the
specification; each such definition says so in its doc comment.

Rust panics (`panic!`, `Option::unwrap` on `None`) are modelled as the
`Abort.panic` outcome of an `Except Abort` computation, kept distinct
from the `Abort.typedErr` outcome that a recoverable typed error value
would produce.
-/

/-! ## Case conversion (external collaborator) -/

/-- Modelled from the spec: PascalCase conversion of the external
`inflector` collaborator, character by character — capitalise at the
start and after each underscore, drop the underscores.  The flag says
whether the next character starts a word. -/
def pascalChars : Bool → List Char → List Char
  | _, [] => []
  | _, '_' :: rest => pascalChars true rest
  | true, c :: rest => c.toUpper :: pascalChars false rest
  | false, c :: rest => c :: pascalChars false rest

/-- Modelled from the spec: PascalCase conversion of the external
`inflector` collaborator. -/
def to_pascal_case (s : String) : String :=
  String.mk (pascalChars true s.data)

/-- Modelled from the spec: snake_case conversion of the external
`inflector` collaborator. -/
def to_snake_case (s : String) : String :=
  match s.data with
  | [] => ""
  | c :: rest =>
      String.mk (c.toLower :: (rest.map (fun d =>
        if d.isUpper then ['_', d.toLower] else [d])).flatten)

/-! ## Semantic AST (from `src/ast/refs.rs` and the `dbml_rs` model the
transpiler consumes) -/

/-- One side of a relation: optional schema, table name, ordered list of
composed column names (`src/ast/refs.rs`, `RefId`). -/
structure RefId where
  schema : Option String
  table : String
  compositions : List String
  deriving Repr, DecidableEq

/-- Relation cardinality (`src/ast/refs.rs`, `Relation`). -/
inductive Relation where
  | Undef
  | One2One
  | One2Many
  | Many2One
  | Many2Many
  deriving Repr, DecidableEq

/-- Referential actions of a relation.  The action enums themselves are
external; the transpiler only ever renders them via `to_string()`, so an
action is modelled by that rendering. -/
structure RefSettings where
  on_delete : Option String
  on_update : Option String
  deriving Repr, DecidableEq

/-- A relation descriptor as consumed by `transpile`: cardinality, a
resolved source endpoint `lhs`, a target endpoint `rhs`, and optional
referential-action settings (`src/ast/refs.rs`, `RefBlock`; the
transpiler accesses `lhs` directly, i.e. with the optional source
endpoint already resolved). -/
structure RefBlock where
  rel : Relation
  lhs : RefId
  rhs : RefId
  settings : Option RefSettings
  deriving Repr, DecidableEq

/-- Modelled from the spec: a column's semantic type together with the
dialect mapping queried through the missing `traits` module —
`to_col_type` (optional explicit column-type attribute) and
`to_rust_type` (native mapped type). -/
structure ColType where
  to_col_type : Option String
  to_rust_type : String
  deriving Repr, DecidableEq

/-- Literal default value of a column.  String literals are
distinguished (they are quoted on output); every other literal is
modelled by its canonical textual form, spec §4.2 rule 5. -/
inductive Value where
  | string (s : String)
  | other (canonical : String)
  deriving Repr, DecidableEq

/-- `Value::to_string` — the canonical textual form. -/
def Value.toText : Value → String
  | .string s => s
  | .other c => c

/-- Column settings (`ColumnDescriptor` settings, spec §3). -/
structure ColSettings where
  is_pk : Bool
  is_incremental : Bool
  is_nullable : Bool
  is_unique : Bool
  default : Option Value
  deriving Repr, DecidableEq

/-- A table column: name, semantic type, settings. -/
structure TableField where
  name : String
  type : ColType
  settings : ColSettings
  deriving Repr, DecidableEq

/-- Modelled from the spec: per-table derived sets of column names
implied primary/unique by index definitions (`MetaIndexer`), computed
once per table by the external analyzer and stored on the table. -/
structure MetaIndexer where
  pk_list : List String
  unique_list : List String
  deriving Repr, DecidableEq

/-- Table identifier: name and optional schema. -/
structure TableIdent where
  name : String
  schema : Option String
  deriving Repr, DecidableEq

/-- A table block: identifier, ordered columns, index definitions (an
external structure, never inspected by the transpiler), and the derived
`MetaIndexer`. -/
structure TableBlock where
  ident : TableIdent
  cols : List TableField
  indexes : List String
  meta_indexer : MetaIndexer
  deriving Repr, DecidableEq

/-- One enum value (its raw string). -/
structure EnumValue where
  value : String
  deriving Repr, DecidableEq

/-- Enum identifier: name and optional schema. -/
structure EnumIdent where
  name : String
  schema : Option String
  deriving Repr, DecidableEq

/-- An enum block: identifier and ordered raw values. -/
structure EnumBlock where
  ident : EnumIdent
  values : List EnumValue
  deriving Repr, DecidableEq

/-- The root semantic schema: ordered tables, ordered enums, and the
full relation list (queried per table via `get_table_refs`). -/
structure SemanticSchemaBlock where
  tables : List TableBlock
  enums : List EnumBlock
  refs : List RefBlock
  deriving Repr, DecidableEq

/-- Database entity target (`Target` in `src/transpiler/mod.rs`): the
only dialect is Postgres. -/
inductive Target where
  | Postgres
  deriving Repr, DecidableEq

/-- Modelled from the spec: RelationIndex (`get_table_refs`), which
partitions the schema-wide relation list for a table T, preserving
original order, into outgoing (source table is T, target is not),
incoming (target table is T, source is not) and self (both endpoints
are T) relations; the Rust call site receives them in the order
`(rto_vec, rby_vec, rself_vec)`. -/
def SemanticSchemaBlock.get_table_refs (ast : SemanticSchemaBlock)
    (ident : TableIdent) : List RefBlock × List RefBlock × List RefBlock :=
  (ast.refs.filter (fun r => r.lhs.table == ident.name && r.rhs.table != ident.name),
   ast.refs.filter (fun r => r.rhs.table == ident.name && r.lhs.table != ident.name),
   ast.refs.filter (fun r => r.lhs.table == ident.name && r.rhs.table == ident.name))

/-! ## The code emitter (`generator` module) -/

mutual

/-- Modelled from the spec: the generic hierarchical code-emission
block (`generator::Block`): an indentation depth, an optional header
line, and an ordered sequence of entries. -/
inductive Block : Type where
  | node (depth : Nat) (header : Option String) (entries : List Entry) : Block

/-- Modelled from the spec: one entry of a block — a literal line, a
run of blank lines, or a nested block. -/
inductive Entry : Type where
  | line (s : String) : Entry
  | blank (n : Nat) : Entry
  | sub (b : Block) : Entry

end

/-- The entries of a block. -/
def Block.entries : Block → List Entry
  | .node _ _ es => es

/-- The depth of a block. -/
def Block.depth : Block → Nat
  | .node d _ _ => d

/-- The header of a block. -/
def Block.header : Block → Option String
  | .node _ h _ => h

/-- `Block::new(depth, header)`. -/
def Block.new (depth : Nat) (header : Option String) : Block :=
  .node depth header []

/-- Append-line. -/
def Block.line (b : Block) (s : String) : Block :=
  .node b.depth b.header (b.entries ++ [.line s])

/-- Append-line-if(condition). -/
def Block.line_cond (b : Block) (cond : Bool) (s : String) : Block :=
  if cond then b.line s else b

/-- Append-blank-run(n). -/
def Block.line_skip (b : Block) (n : Nat) : Block :=
  .node b.depth b.header (b.entries ++ [.blank n])

/-- Append-block. -/
def Block.block (b : Block) (inner : Block) : Block :=
  .node b.depth b.header (b.entries ++ [.sub inner])

/-- Append-block-sequence. -/
def Block.block_vec (b : Block) (inner : List Block) : Block :=
  .node b.depth b.header (b.entries ++ inner.map .sub)

/-- Modelled from the spec: the top-level `Codegen` value — an ordered
sequence of entries emitted at depth zero. -/
structure Codegen where
  entries : List Entry

/-- `Codegen::new()`. -/
def Codegen.new : Codegen := ⟨[]⟩

/-- Append a top-level line. -/
def Codegen.line (c : Codegen) (s : String) : Codegen :=
  ⟨c.entries ++ [.line s]⟩

/-- Append a top-level blank run. -/
def Codegen.line_skip (c : Codegen) (n : Nat) : Codegen :=
  ⟨c.entries ++ [.blank n]⟩

/-- Append a top-level block. -/
def Codegen.block (c : Codegen) (b : Block) : Codegen :=
  ⟨c.entries ++ [.sub b]⟩

/-- Indentation: two spaces per level. -/
def ind (n : Nat) : String :=
  String.join (List.replicate n "  ")

mutual

/-- Modelled from the spec: depth-first deterministic rendering — the
header line at the block's depth with the opening delimiter, each entry
one level deeper, the closing delimiter back at the block's depth.  A
block constructed at depth `d` prints its header at indentation
`d - 1` and its literal lines at indentation `d`. -/
def renderBlock : Block → List String
  | .node d h es =>
      (match h with
       | some hdr => [ind (d - 1) ++ hdr ++ " \x7b"]
       | none => []) ++ renderEntries d es ++ [ind (d - 1) ++ "\x7d"]

/-- Render one entry at indentation `d`. -/
def renderEntry (d : Nat) : Entry → List String
  | .line s => [ind d ++ s]
  | .blank n => List.replicate n ""
  | .sub b => renderBlock b

/-- Render a list of entries at indentation `d`. -/
def renderEntries (d : Nat) : List Entry → List String
  | [] => []
  | e :: rest => renderEntry d e ++ renderEntries d rest

end

/-- `Codegen::to_string`: render all top-level entries at indentation
zero and join the lines. -/
def Codegen.toText (c : Codegen) : String :=
  String.intercalate "\n" (renderEntries 0 c.entries)

/-! ## Failure model -/

/-- Modelled from the spec (§7): the typed error kinds the core is
required to surface.  The Rust code never constructs these — it panics
instead — but they are needed to state the error-handling claims. -/
inductive TranspileError where
  | UnsupportedRelationKind (rel : RefBlock)
  | MissingCompositionColumn
  deriving Repr, DecidableEq

/-- How a transpilation run can abort: an unconditional process
termination (Rust `panic!` or `Option::unwrap` on `None`), or a
recoverable typed error value. -/
inductive Abort where
  | panic (msg : String)
  | typedErr (e : TranspileError)
  deriving Repr, DecidableEq

/-- `Option::unwrap` on `compositions.get(0)`: the head of the list, or
a panic when the list is empty. -/
def unwrapHead (l : List String) : Except Abort String :=
  match l with
  | [] => .error (.panic "called Option.unwrap on a None value")
  | x :: _ => .ok x

/-! ## Field-attribute derivation (`transpile`, field listing) -/

/-- Push of the explicit column-type attribute (line 96). -/
def typeAttr (field : TableField) : List String :=
  match field.type.to_col_type with
  | some exp_type => ["column_type = \"" ++ exp_type ++ "\""]
  | none => []

/-- Pushes of `primary_key` and the auto-increment marker
(lines 99–108): column-level `is_pk` first (with the marker when
`is_incremental` is false), otherwise the index-derived primary key. -/
def pkAttrs (mi : MetaIndexer) (field : TableField) : List String :=
  if field.settings.is_pk then
    ["primary_key"] ++
      (if !field.settings.is_incremental then ["auto_increment = false"] else [])
  else if mi.pk_list.contains field.name then
    ["primary_key"]
  else []

/-- Push of `nullable` (line 109). -/
def nullableAttr (field : TableField) : List String :=
  if field.settings.is_nullable then ["nullable"] else []

/-- Push of `unique` (line 112): column-level flag or index-derived
unique set. -/
def uniqueAttr (mi : MetaIndexer) (field : TableField) : List String :=
  if field.settings.is_unique || mi.unique_list.contains field.name then
    ["unique"]
  else []

/-- Push of the default-value attribute (lines 115–123): string
defaults are quoted, other literals use their canonical text. -/
def defaultAttr (field : TableField) : List String :=
  match field.settings.default with
  | some default =>
      let d := match default with
        | .string val => "\"" ++ val ++ "\""
        | v => v.toText
      ["default_value = " ++ d]
  | none => []

/-- The full ordered attribute list of a column (`out_fields`). -/
def fieldAttrs (mi : MetaIndexer) (field : TableField) : List String :=
  typeAttr field ++ pkAttrs mi field ++ nullableAttr field ++
    uniqueAttr mi field ++ defaultAttr field

/-- The rendered field type: the rust type, wrapped in `Option<...>`
when nullable (lines 125–130). -/
def fieldTypeText (field : TableField) : String :=
  if field.settings.is_nullable then
    "Option<" ++ field.type.to_rust_type ++ ">"
  else
    field.type.to_rust_type

/-- One step of the field-listing fold (lines 93–135): the attribute
line is appended only when the attribute list is non-empty, then the
field declaration line. -/
def fieldStep (mi : MetaIndexer) (acc : Block) (field : TableField) : Block :=
  let out_fields := fieldAttrs mi field
  (acc.line_cond (!out_fields.isEmpty)
      ("#[sea_orm(" ++ String.intercalate ", " out_fields ++ ")]")).line
    ("pub " ++ field.name ++ ": " ++ fieldTypeText field ++ ",")

/-! ## Relation listing (`transpile`, relation folds) -/

/-- The optional `on_delete` / `on_update` attribute pushes shared by
the self and outgoing folds (lines 151–158 and 198–205). -/
def settingsActionAttrs (settings : Option RefSettings) : List String :=
  match settings with
  | some s =>
      (match s.on_delete with
       | some action => ["on_delete = \"" ++ to_pascal_case action ++ "\""]
       | none => []) ++
      (match s.on_update with
       | some action => ["on_update = \"" ++ to_pascal_case action ++ "\""]
       | none => [])
  | none => []

/-- The derive attribute of a self-relation (lines 144–161). -/
def selfDerive (from_field_pascal to_field_pascal : String)
    (settings : Option RefSettings) : String :=
  let attrs := ["belongs_to = \"Entity\"",
                "from = \"Column::" ++ from_field_pascal ++ "\"",
                "to = \"Column::" ++ to_field_pascal ++ "\""] ++
    settingsActionAttrs settings
  "#[sea_orm(" ++ String.intercalate ", " attrs ++ ")]"

/-- The two auxiliary blocks a self-relation pushes (lines 163–176). -/
def selfLinkBlocks : List Block :=
  [Block.new 2 (some "pub struct SelfReferencingLink"),
   Block.new 2 (some "impl Linked for SelfReferencingLink")
     |>.line "type FromEntity = Entity;"
     |>.line "type ToEntity = Entity;"
     |>.line_skip 1
     |>.block ((Block.new 3 (some "fn link(&self) -> Vec<RelationDef>")).line
       "vec![Relation::SelfReferencing.def()]")]

/-- One step of the self-relation fold (lines 140–181): unwrap the
first composition column of each endpoint, emit the derive line and the
fixed `SelfReferencing` variant, and push the auxiliary link blocks.
Note that the relation kind is never inspected. -/
def selfStep (st : Block × List Block) (rto : RefBlock) :
    Except Abort (Block × List Block) := do
  let from_field ← unwrapHead rto.lhs.compositions
  let to_field ← unwrapHead rto.rhs.compositions
  let derive := selfDerive (to_pascal_case from_field) (to_pascal_case to_field)
    rto.settings
  .ok ((st.1.line derive).line "SelfReferencing,", st.2 ++ selfLinkBlocks)

/-- The auxiliary `Related` implementation block pushed by the outgoing
and incoming folds (lines 212–218 and 239–245). -/
def relatedImplBlock (name_snake name_pascal : String) : Block :=
  (Block.new 2 (some ("impl Related<super::" ++ name_snake ++
      "::Entity> for Entity"))).block
    ((Block.new 3 (some "fn to() -> RelationDef")).line
      ("Relation::" ++ name_pascal ++ ".def()"))

/-- The derive attribute of an outgoing relation of a supported kind
(lines 192–207). -/
def outDerive (name_snake from_field_pascal to_field_pascal : String)
    (settings : Option RefSettings) : String :=
  let attrs := ["belongs_to = \"super::" ++ name_snake ++ "::Entity\"",
                "from = \"Column::" ++ from_field_pascal ++ "\"",
                "to = \"super::" ++ name_snake ++ "::Column::" ++
                  to_field_pascal ++ "\""] ++
    settingsActionAttrs settings
  "#[sea_orm(" ++ String.intercalate ", " attrs ++ ")]"

/-- One step of the outgoing-relation fold (lines 183–223): the
composition unwraps happen before the kind is matched; `One2One` and
`Many2One` build a belongs-to derive, every other kind panics with
`unsupported_rel`. -/
def outStep (st : Block × List Block) (rto : RefBlock) :
    Except Abort (Block × List Block) := do
  let from_field ← unwrapHead rto.lhs.compositions
  let to_field ← unwrapHead rto.rhs.compositions
  let name_pascal := to_pascal_case rto.rhs.table
  let name_snake := to_snake_case rto.rhs.table
  let derive ← match rto.rel with
    | .One2One | .Many2One =>
        Except.ok (outDerive name_snake (to_pascal_case from_field)
          (to_pascal_case to_field) rto.settings)
    | _ => .error (.panic "unsupported_rel")
  .ok ((st.1.line derive).line (name_pascal ++ ","),
    st.2 ++ [relatedImplBlock name_snake name_pascal])

/-- The derive attribute of an incoming relation (lines 229–237):
`One2One` renders has-one, `Many2One` renders has-many, every other
kind panics with `unsupported_rel`.  The relation's settings are never
consulted. -/
def inDerive (rel : Relation) (name_snake : String) : Except Abort String :=
  match rel with
  | .One2One =>
      .ok ("#[sea_orm(has_one = \"super::" ++ name_snake ++ "::Entity\")]")
  | .Many2One =>
      .ok ("#[sea_orm(has_many = \"super::" ++ name_snake ++ "::Entity\")]")
  | _ => .error (.panic "unsupported_rel")

/-- One step of the incoming-relation fold (lines 225–250). -/
def inStep (st : Block × List Block) (rby : RefBlock) :
    Except Abort (Block × List Block) := do
  let name_pascal := to_pascal_case rby.lhs.table
  let name_snake := to_snake_case rby.lhs.table
  let derive ← inDerive rby.rel name_snake
  .ok ((st.1.line derive).line (name_pascal ++ ","),
    st.2 ++ [relatedImplBlock name_snake name_pascal])

/-- The relation block and auxiliary entity blocks of one table: the
self fold, then the outgoing fold, then the incoming fold, threading
the mutable `rel_entity_blocks` vector (lines 138–250). -/
def buildRelBlock (rel_block : Block) (rto_vec rby_vec rself_vec : List RefBlock) :
    Except Abort (Block × List Block) := do
  let st ← rself_vec.foldlM selfStep (rel_block, [])
  let st ← rto_vec.foldlM outStep st
  rby_vec.foldlM inStep st

/-! ## Entity and enum assembly -/

/-- Modelled from the spec (§9): the global tool-name constant used in
the output header. -/
def NAME : String := "dbml-entity"

/-- Modelled from the spec (§9): the global tool-version constant used
in the output header. -/
def VERSION : String := "0.1.0"

/-- The table annotation line (line 257): a missing schema defaults to
the literal `public`. -/
def tableHeaderAttr (ident : TableIdent) : String :=
  "#[sea_orm(table_name = \"" ++ ident.name ++ "\", schema_name = \"" ++
    ident.schema.getD "public" ++ "\")]"

/-- One table's contribution to the output (lines 80–269). -/
def transpileTable (ast : SemanticSchemaBlock) (acc : Codegen)
    (table : TableBlock) : Except Abort Codegen := do
  let ident := table.ident
  let table_block := table.cols.foldl (fieldStep table.meta_indexer)
    (Block.new 2 (some "pub struct Model"))
  let (rto_vec, rby_vec, rself_vec) := ast.get_table_refs ident
  let (rel_block, rel_entity_blocks) ← buildRelBlock
    (Block.new 2 (some "pub enum Relation")) rto_vec rby_vec rself_vec
  let mod_block :=
    Block.new 1 (some ("pub mod " ++ to_snake_case ident.name))
      |>.line "use sea_orm::entity::prelude::*;"
      |>.line_skip 1
      |>.line "#[derive(Clone, Debug, PartialEq, DeriveEntityModel)]"
      |>.line (tableHeaderAttr ident)
      |>.block table_block
      |>.line_skip 1
      |>.line "#[derive(Copy, Clone, Debug, EnumIter, DeriveRelation)]"
      |>.block rel_block
      |>.block_vec rel_entity_blocks
      |>.line_skip 1
      |>.line "impl ActiveModelBehavior for ActiveModel \x7b\x7d"
  .ok ((acc.line_skip 1).block mod_block)

/-- The enum annotation line (line 294): a missing schema defaults to
the literal `public`. -/
def enumHeaderAttr (ident : EnumIdent) : String :=
  "#[sea_orm(rs_type = \"String\", db_type = \"Enum\", enum_name = \"" ++
    ident.name ++ "\", schema_name = \"" ++ ident.schema.getD "public" ++ "\")]"

/-- One step of the enum-value fold (lines 282–288). -/
def enumValueStep (acc : Block) (value : EnumValue) : Block :=
  acc.line ("#[sea_orm(string_value = \"" ++ value.value ++ "\")]")
    |>.line (to_pascal_case value.value ++ ",")

/-- One enum's contribution to the output (lines 271–297). -/
def transpileEnum (acc : Codegen) (e : EnumBlock) : Codegen :=
  let enum_block := e.values.foldl enumValueStep
    (Block.new 1 (some ("pub enum " ++ to_pascal_case e.ident.name)))
  acc.line_skip 1
    |>.line "#[derive(Clone, Debug, PartialEq, EnumIter, DeriveActiveEnum)]"
    |>.line (enumHeaderAttr e.ident)
    |>.block enum_block

/-- The transpiler entry point (lines 74–300): header lines, the table
fold, the enum fold, and the rendered text.  The target dialect is
accepted but — Postgres being the only dialect — never inspected. -/
def transpile (ast : SemanticSchemaBlock) (target : Target) :
    Except Abort String := do
  let codegen := Codegen.new
    |>.line ("//! Generated by " ++ NAME ++ " " ++ VERSION)
    |>.line_skip 1
    |>.line "use sea_orm::entity::prelude::*;"
  let codegen ← ast.tables.foldlM (transpileTable ast) codegen
  let codegen := ast.enums.foldl transpileEnum codegen
  .ok codegen.toText

/-! ## Helper lemmas about attribute strings -/

theorem ne_of_head {a b : String} {ca cb : Char}
    (ha : a.data.head? = some ca) (hb : b.data.head? = some cb) (h : ca ≠ cb) :
    a ≠ b := by
  intro e
  rw [e, hb] at ha
  exact h (Option.some.inj ha).symm

theorem colType_attr_head (t : String) :
    ("column_type = \"" ++ t ++ "\"").data.head? = some 'c' := rfl

theorem defaultAttr_head (d : String) :
    ("default_value = " ++ d).data.head? = some 'd' := rfl

theorem count_typeAttr (f : TableField) (s : String)
    (hs : s.data.head? ≠ some 'c') : (typeAttr f).count s = 0 := by
  rw [List.count_eq_zero]
  unfold typeAttr
  cases f.type.to_col_type with
  | none => simp
  | some t =>
      simp only [List.mem_singleton]
      intro hm
      exact hs (by rw [hm]; exact colType_attr_head t)

theorem count_pkAttrs (mi : MetaIndexer) (f : TableField) (s : String)
    (h1 : s ≠ "primary_key") (h2 : s ≠ "auto_increment = false") :
    (pkAttrs mi f).count s = 0 := by
  rw [List.count_eq_zero]
  unfold pkAttrs
  by_cases hp : f.settings.is_pk = true <;>
    by_cases hi : f.settings.is_incremental = true <;>
    by_cases hc : mi.pk_list.contains f.name = true <;>
    simp [hp, hi, hc, h1, h2]

theorem count_nullableAttr (f : TableField) (s : String) (h : s ≠ "nullable") :
    (nullableAttr f).count s = 0 := by
  rw [List.count_eq_zero]
  unfold nullableAttr
  by_cases hn : f.settings.is_nullable = true <;> simp [hn, h]

theorem count_uniqueAttr (mi : MetaIndexer) (f : TableField) (s : String)
    (h : s ≠ "unique") : (uniqueAttr mi f).count s = 0 := by
  rw [List.count_eq_zero]
  unfold uniqueAttr
  by_cases hu : (f.settings.is_unique || mi.unique_list.contains f.name) = true <;>
    simp [hu, h]

theorem count_defaultAttr (f : TableField) (s : String)
    (hs : s.data.head? ≠ some 'd') : (defaultAttr f).count s = 0 := by
  rw [List.count_eq_zero]
  unfold defaultAttr
  cases f.settings.default with
  | none => simp
  | some v =>
      simp only [List.mem_singleton]
      intro hm
      exact hs (by rw [hm]; exact defaultAttr_head _)

/-- C3: for every column of every table, the `unique` attribute is
emitted iff the column's `is_unique` setting is true or the column name
is in the table's MetaIndexer unique set, and it appears exactly once in
the column's attribute list even when both conditions hold. -/
theorem unique_attribute_exactly_once (mi : MetaIndexer) (f : TableField) :
    (fieldAttrs mi f).count "unique" =
      (if f.settings.is_unique || mi.unique_list.contains f.name then 1 else 0) := by
  unfold fieldAttrs
  rw [List.count_append, List.count_append, List.count_append, List.count_append]
  rw [count_typeAttr f _ (by decide), count_pkAttrs mi f _ (by decide) (by decide),
      count_nullableAttr f _ (by decide), count_defaultAttr f _ (by decide)]
  unfold uniqueAttr
  by_cases hu : f.settings.is_unique = true ∨ f.name ∈ mi.unique_list <;> simp [hu]

/-- C4: a column with `is_pk = true` and `is_incremental = false` has
`primary_key` immediately followed by `auto_increment = false` in its
attribute list; a column with `is_pk = false` whose name is in the
MetaIndexer primary-key set gets `primary_key` but never the
auto-increment marker. -/
theorem primary_key_attr_order (mi : MetaIndexer) (f : TableField) :
    (f.settings.is_pk = true → f.settings.is_incremental = false →
      ∃ l r, fieldAttrs mi f = l ++ (["primary_key", "auto_increment = false"] ++ r)) ∧
    (f.settings.is_pk = false → mi.pk_list.contains f.name = true →
      ("primary_key" ∈ fieldAttrs mi f ∧
        "auto_increment = false" ∉ fieldAttrs mi f)) := by
  constructor
  · intro hp hi
    refine ⟨typeAttr f, nullableAttr f ++ (uniqueAttr mi f ++ defaultAttr f), ?_⟩
    unfold fieldAttrs pkAttrs
    rw [hp, hi]
    simp
  · intro hp hc
    constructor
    · unfold fieldAttrs pkAttrs
      rw [hp, hc]
      simp
    · rw [← List.count_eq_zero]
      unfold fieldAttrs
      rw [List.count_append, List.count_append, List.count_append,
        List.count_append]
      rw [count_typeAttr f _ (by decide), count_nullableAttr f _ (by decide),
        count_uniqueAttr mi f _ (by decide), count_defaultAttr f _ (by decide)]
      unfold pkAttrs
      rw [hp, hc]
      simp

/-- A primary-key column with auto-increment disabled, for exercising
the first half of the primary-key ordering theorem. -/
def pkWitField : TableField :=
  { name := "id", type := { to_col_type := none, to_rust_type := "i32" },
    settings := { is_pk := true, is_incremental := false, is_nullable := false,
                  is_unique := false, default := none } }

/-- A column that is a primary key only through the index-derived set,
for exercising the second half of the primary-key ordering theorem. -/
def idxPkWitField : TableField :=
  { name := "code", type := { to_col_type := none, to_rust_type := "String" },
    settings := { is_pk := false, is_incremental := false, is_nullable := false,
                  is_unique := false, default := none } }

/-- Index-derived primary-key set naming `code`. -/
def idxPkWitMeta : MetaIndexer := { pk_list := ["code"], unique_list := [] }

/-- Witness for the primary-key ordering theorem at concrete columns. -/
theorem primary_key_attr_order_witness :
    (∃ l r, fieldAttrs { pk_list := [], unique_list := [] } pkWitField =
      l ++ (["primary_key", "auto_increment = false"] ++ r)) ∧
    ("primary_key" ∈ fieldAttrs idxPkWitMeta idxPkWitField ∧
      "auto_increment = false" ∉ fieldAttrs idxPkWitMeta idxPkWitField) :=
  ⟨(primary_key_attr_order { pk_list := [], unique_list := [] } pkWitField).1 rfl rfl,
   (primary_key_attr_order idxPkWitMeta idxPkWitField).2 rfl rfl⟩

/-- C7: transpilation is deterministic — any two runs of `transpile` on
the same schema and target produce the same result, hence byte-identical
output text.  The embedded `transpile` is a pure function of its
arguments: it consults no state besides the schema and target. -/
theorem transpile_deterministic (ast : SemanticSchemaBlock) (t : Target)
    (r1 r2 : Except Abort String)
    (h1 : r1 = transpile ast t) (h2 : r2 = transpile ast t) : r1 = r2 :=
  h1.trans h2.symm

/-- A one-table, one-enum schema for the determinism witness. -/
def detWitSchema : SemanticSchemaBlock :=
  { tables := [{ ident := { name := "users", schema := none },
                 cols := [pkWitField], indexes := [],
                 meta_indexer := { pk_list := [], unique_list := [] } }],
    enums := [{ ident := { name := "status", schema := none },
                values := [{ value := "active" }] }],
    refs := [] }

/-- Witness for determinism: two runs on the concrete schema coincide. -/
theorem transpile_deterministic_witness :
    transpile detWitSchema Target.Postgres = transpile detWitSchema Target.Postgres :=
  transpile_deterministic detWitSchema Target.Postgres _ _ rfl rfl

/-- C8: a table or enum identifier without a schema name is emitted with
the literal schema name `public` in its sea_orm annotation. -/
theorem missing_schema_defaults_public (tid : TableIdent) (eid : EnumIdent)
    (ht : tid.schema = none) (he : eid.schema = none) :
    tableHeaderAttr tid =
      "#[sea_orm(table_name = \"" ++ tid.name ++ "\", schema_name = \"" ++
        "public" ++ "\")]" ∧
    enumHeaderAttr eid =
      "#[sea_orm(rs_type = \"String\", db_type = \"Enum\", enum_name = \"" ++
        eid.name ++ "\", schema_name = \"" ++ "public" ++ "\")]" := by
  unfold tableHeaderAttr enumHeaderAttr
  rw [ht, he]
  exact ⟨rfl, rfl⟩

/-- Witness for the `public` default at concrete identifiers. -/
theorem missing_schema_defaults_public_witness :
    tableHeaderAttr { name := "users", schema := none } =
      "#[sea_orm(table_name = \"users\", schema_name = \"public\")]" ∧
    enumHeaderAttr { name := "status", schema := none } =
      "#[sea_orm(rs_type = \"String\", db_type = \"Enum\", enum_name = \"status\", schema_name = \"public\")]" :=
  missing_schema_defaults_public { name := "users", schema := none }
    { name := "status", schema := none } rfl rfl

/-- C9: a column whose derived attribute list is empty contributes no
attribute line at all — only the field declaration line. -/
theorem no_attribute_line_when_empty (mi : MetaIndexer) (acc : Block)
    (f : TableField) (h : fieldAttrs mi f = []) :
    (fieldStep mi acc f).entries =
      acc.entries ++ [Entry.line ("pub " ++ f.name ++ ": " ++ fieldTypeText f ++ ",")] := by
  simp [fieldStep, h, Block.line_cond, Block.line, Block.entries]

/-- A column with no type mapping, no key, no flags and no default. -/
def plainWitField : TableField :=
  { name := "note", type := { to_col_type := none, to_rust_type := "String" },
    settings := { is_pk := false, is_incremental := false, is_nullable := false,
                  is_unique := false, default := none } }

/-- Witness: the attribute-free column produces exactly its declaration
line. -/
theorem no_attribute_line_when_empty_witness :
    (fieldStep { pk_list := [], unique_list := [] }
        (Block.new 2 (some "pub struct Model")) plainWitField).entries =
      (Block.new 2 (some "pub struct Model")).entries ++
        [Entry.line ("pub " ++ plainWitField.name ++ ": " ++
          fieldTypeText plainWitField ++ ",")] :=
  no_attribute_line_when_empty { pk_list := [], unique_list := [] }
    (Block.new 2 (some "pub struct Model")) plainWitField rfl

/-! ## Except-bind reduction helpers -/

theorem abortBind_ok {α β : Type} (a : α) (f : α → Except Abort β) :
    (Except.ok a >>= f) = f a := rfl

theorem abortBind_error {α β : Type} (e : Abort) (f : α → Except Abort β) :
    ((Except.error e : Except Abort α) >>= f) = Except.error e := rfl

/-- C10: an incoming relation renders as a bare has-one / has-many
attribute; its referential-action settings are never consulted, so no
`on_delete` or `on_update` entry can appear there — while the
settings-to-attribute translation used by the self and outgoing derives
does render both actions when present. -/
theorem incoming_ignores_referential_actions (st : Block × List Block)
    (r : RefBlock) :
    (r.rel = Relation.One2One →
      inStep st r = .ok
        ((st.1.line ("#[sea_orm(has_one = \"super::" ++ to_snake_case r.lhs.table ++
            "::Entity\")]")).line (to_pascal_case r.lhs.table ++ ","),
         st.2 ++ [relatedImplBlock (to_snake_case r.lhs.table)
            (to_pascal_case r.lhs.table)])) ∧
    (r.rel = Relation.Many2One →
      inStep st r = .ok
        ((st.1.line ("#[sea_orm(has_many = \"super::" ++ to_snake_case r.lhs.table ++
            "::Entity\")]")).line (to_pascal_case r.lhs.table ++ ","),
         st.2 ++ [relatedImplBlock (to_snake_case r.lhs.table)
            (to_pascal_case r.lhs.table)])) ∧
    (∀ s : Option RefSettings, inStep st { r with settings := s } = inStep st r) ∧
    (∀ da ua : String,
      settingsActionAttrs (some { on_delete := some da, on_update := some ua }) =
        ["on_delete = \"" ++ to_pascal_case da ++ "\"",
         "on_update = \"" ++ to_pascal_case ua ++ "\""]) := by
  refine ⟨?_, ?_, ?_, ?_⟩
  · intro hk
    simp [inStep, inDerive, hk, abortBind_ok]
  · intro hk
    simp [inStep, inDerive, hk, abortBind_ok]
  · intro s
    rfl
  · intro da ua
    rfl

/-- An incoming one-to-one relation carrying referential actions, for
the referential-action witness. -/
def inActionWitRel : RefBlock :=
  { rel := Relation.One2One,
    lhs := { schema := none, table := "profiles", compositions := ["user_id"] },
    rhs := { schema := none, table := "users", compositions := ["id"] },
    settings := some { on_delete := some "cascade", on_update := some "restrict" } }

/-- Witness: at the concrete incoming relation the has-one attribute is
emitted without any referential action, which the settings translation
would have rendered. -/
theorem incoming_ignores_referential_actions_witness :
    (inStep (Block.new 2 (some "pub enum Relation"), []) inActionWitRel = .ok
      (((Block.new 2 (some "pub enum Relation")).line
          ("#[sea_orm(has_one = \"super::" ++ to_snake_case inActionWitRel.lhs.table ++
            "::Entity\")]")).line (to_pascal_case inActionWitRel.lhs.table ++ ","),
       [] ++ [relatedImplBlock (to_snake_case inActionWitRel.lhs.table)
          (to_pascal_case inActionWitRel.lhs.table)])) ∧
    settingsActionAttrs (some { on_delete := some "cascade", on_update := some "restrict" }) =
      ["on_delete = \"" ++ to_pascal_case "cascade" ++ "\"",
       "on_update = \"" ++ to_pascal_case "restrict" ++ "\""] :=
  ⟨(incoming_ignores_referential_actions (Block.new 2 (some "pub enum Relation"), [])
      inActionWitRel).1 rfl,
   (incoming_ignores_referential_actions (Block.new 2 (some "pub enum Relation"), [])
      inActionWitRel).2.2.2 "cascade" "restrict"⟩

/-! ## Concrete schemas exercising the failure paths -/

/-- A plain single-column table named `users`. -/
def usersWitTable : TableBlock :=
  { ident := { name := "users", schema := none },
    cols := [pkWitField], indexes := [],
    meta_indexer := { pk_list := [], unique_list := [] } }

/-- A schema whose only relation is an outgoing one-to-many from
`users`. -/
def one2ManyOutSchema : SemanticSchemaBlock :=
  { tables := [usersWitTable], enums := [],
    refs := [{ rel := Relation.One2Many,
               lhs := { schema := none, table := "users", compositions := ["id"] },
               rhs := { schema := none, table := "posts", compositions := ["user_id"] },
               settings := none }] }

/-- A schema whose only relation is an incoming one-to-many into
`users` (its source table has no table block of its own). -/
def one2ManyInSchema : SemanticSchemaBlock :=
  { tables := [usersWitTable], enums := [],
    refs := [{ rel := Relation.One2Many,
               lhs := { schema := none, table := "comments", compositions := ["user_id"] },
               rhs := { schema := none, table := "users", compositions := ["id"] },
               settings := none }] }

/-- A schema whose only relation is a one-to-many from `users` to
itself. -/
def one2ManySelfSchema : SemanticSchemaBlock :=
  { tables := [usersWitTable], enums := [],
    refs := [{ rel := Relation.One2Many,
               lhs := { schema := none, table := "users", compositions := ["parent_id"] },
               rhs := { schema := none, table := "users", compositions := ["id"] },
               settings := none }] }

/-- C1 (divergence evidence): an unsupported relation kind makes the
code panic with the untyped message `unsupported_rel` on outgoing and
incoming edges — not return a typed `UnsupportedRelationKind` value —
and on a self edge the unsupported kind is silently rendered as a
belongs-to relation with no error at all. -/
theorem unsupported_kind_panics_or_is_dropped :
    transpile one2ManyOutSchema Target.Postgres =
      .error (.panic "unsupported_rel") ∧
    transpile one2ManyInSchema Target.Postgres =
      .error (.panic "unsupported_rel") ∧
    (transpile one2ManySelfSchema Target.Postgres).isOk = true := by
  exact ⟨rfl, rfl, rfl⟩

/-- A schema with a self relation whose source endpoint has zero
composed columns. -/
def emptyCompSelfSchema : SemanticSchemaBlock :=
  { tables := [usersWitTable], enums := [],
    refs := [{ rel := Relation.Many2One,
               lhs := { schema := none, table := "users", compositions := [] },
               rhs := { schema := none, table := "users", compositions := ["id"] },
               settings := none }] }

/-- A schema with an incoming relation (source table has no table
block) whose source endpoint has zero composed columns. -/
def emptyCompInSchema : SemanticSchemaBlock :=
  { tables := [usersWitTable], enums := [],
    refs := [{ rel := Relation.Many2One,
               lhs := { schema := none, table := "comments", compositions := [] },
               rhs := { schema := none, table := "users", compositions := ["id"] },
               settings := none }] }

/-- C2 (divergence evidence): an endpoint with zero composed columns
makes the code panic through `Option::unwrap` — not return a typed
`MissingCompositionColumn` value — and on a purely incoming edge the
empty endpoint is silently accepted. -/
theorem empty_composition_panics_not_typed :
    transpile emptyCompSelfSchema Target.Postgres =
      .error (.panic "called Option.unwrap on a None value") ∧
    (transpile emptyCompInSchema Target.Postgres).isOk = true := by
  exact ⟨rfl, rfl⟩

/-- A self relation on the table `users`. -/
def selfRelUsersCex : RefBlock :=
  { rel := Relation.Many2One,
    lhs := { schema := none, table := "users", compositions := ["parent_id"] },
    rhs := { schema := none, table := "users", compositions := ["id"] },
    settings := none }

/-- C6 counterexample: for a self relation on the table `users`, the
variant rendered into the relation block is the fixed name
`SelfReferencing`, not the PascalCase name of the opposite table
(`Users`), refuting the claim for self edges. -/
theorem self_variant_fixed_name_cex :
    buildRelBlock (Block.new 2 (some "pub enum Relation")) [] [] [selfRelUsersCex] =
      .ok (Block.node 2 (some "pub enum Relation")
        [Entry.line "#[sea_orm(belongs_to = \"Entity\", from = \"Column::ParentId\", to = \"Column::Id\")]",
         Entry.line "SelfReferencing,"],
        selfLinkBlocks) ∧
    "SelfReferencing," ≠ to_pascal_case "users" ++ "," :=
  ⟨rfl, by decide⟩

/-- C6 (amended): an outgoing relation's variant is named by the
PascalCase of the opposite (target) table, an incoming relation's
variant by the PascalCase of the opposite (source) table, and a self
relation's variant is always the fixed name `SelfReferencing`. -/
theorem relation_variant_names (st : Block × List Block) (r : RefBlock)
    (ff tf : String)
    (hl : r.lhs.compositions.head? = some ff)
    (hr : r.rhs.compositions.head? = some tf)
    (hk : r.rel = Relation.One2One ∨ r.rel = Relation.Many2One) :
    (∃ d, outStep st r = .ok
      ((st.1.line d).line (to_pascal_case r.rhs.table ++ ","),
       st.2 ++ [relatedImplBlock (to_snake_case r.rhs.table)
         (to_pascal_case r.rhs.table)])) ∧
    (∃ d, inStep st r = .ok
      ((st.1.line d).line (to_pascal_case r.lhs.table ++ ","),
       st.2 ++ [relatedImplBlock (to_snake_case r.lhs.table)
         (to_pascal_case r.lhs.table)])) ∧
    selfStep st r = .ok
      ((st.1.line (selfDerive (to_pascal_case ff) (to_pascal_case tf)
          r.settings)).line "SelfReferencing,",
       st.2 ++ selfLinkBlocks) := by
  obtain ⟨lt, hcl⟩ : ∃ lt, r.lhs.compositions = ff :: lt := by
    cases hc : r.lhs.compositions with
    | nil => rw [hc] at hl; exact absurd hl (by simp)
    | cons a t => rw [hc] at hl; simp at hl; exact ⟨t, by rw [hl]⟩
  obtain ⟨rt, hcr⟩ : ∃ rt, r.rhs.compositions = tf :: rt := by
    cases hc : r.rhs.compositions with
    | nil => rw [hc] at hr; exact absurd hr (by simp)
    | cons a t => rw [hc] at hr; simp at hr; exact ⟨t, by rw [hr]⟩
  refine ⟨?_, ?_, ?_⟩
  · rcases hk with hk | hk <;>
      exact ⟨outDerive (to_snake_case r.rhs.table) (to_pascal_case ff)
          (to_pascal_case tf) r.settings,
        by simp [outStep, unwrapHead, hcl, hcr, hk, abortBind_ok]⟩
  · rcases hk with hk | hk
    · exact ⟨"#[sea_orm(has_one = \"super::" ++ to_snake_case r.lhs.table ++
          "::Entity\")]",
        by simp [inStep, inDerive, hk, abortBind_ok]⟩
    · exact ⟨"#[sea_orm(has_many = \"super::" ++ to_snake_case r.lhs.table ++
          "::Entity\")]",
        by simp [inStep, inDerive, hk, abortBind_ok]⟩
  · simp [selfStep, unwrapHead, hcl, hcr, abortBind_ok]

/-- An ordinary many-to-one relation from `posts` to `users`. -/
def variantWitRel : RefBlock :=
  { rel := Relation.Many2One,
    lhs := { schema := none, table := "posts", compositions := ["user_id"] },
    rhs := { schema := none, table := "users", compositions := ["id"] },
    settings := none }

/-- Witness for the amended variant-naming theorem at a concrete
relation. -/
theorem relation_variant_names_witness :
    (∃ d, outStep (Block.new 2 (some "pub enum Relation"), []) variantWitRel = .ok
      (((Block.new 2 (some "pub enum Relation")).line d).line
          (to_pascal_case variantWitRel.rhs.table ++ ","),
       [] ++ [relatedImplBlock (to_snake_case variantWitRel.rhs.table)
         (to_pascal_case variantWitRel.rhs.table)])) ∧
    (∃ d, inStep (Block.new 2 (some "pub enum Relation"), []) variantWitRel = .ok
      (((Block.new 2 (some "pub enum Relation")).line d).line
          (to_pascal_case variantWitRel.lhs.table ++ ","),
       [] ++ [relatedImplBlock (to_snake_case variantWitRel.lhs.table)
         (to_pascal_case variantWitRel.lhs.table)])) ∧
    selfStep (Block.new 2 (some "pub enum Relation"), []) variantWitRel = .ok
      (((Block.new 2 (some "pub enum Relation")).line
          (selfDerive (to_pascal_case "user_id") (to_pascal_case "id")
            variantWitRel.settings)).line "SelfReferencing,",
       [] ++ selfLinkBlocks) :=
  relation_variant_names (Block.new 2 (some "pub enum Relation"), []) variantWitRel
    "user_id" "id" rfl rfl (Or.inr rfl)

/-! ## The relation-block shape -/

/-- The two relation-block lines one self relation appends: its derive
attribute and the fixed `SelfReferencing` variant. -/
def selfLines (r : RefBlock) : List Entry :=
  match r.lhs.compositions, r.rhs.compositions with
  | ff :: _, tf :: _ =>
      [Entry.line (selfDerive (to_pascal_case ff) (to_pascal_case tf) r.settings),
       Entry.line "SelfReferencing,"]
  | _, _ => []

/-- The two relation-block lines one outgoing relation of a supported
kind appends: its derive attribute and the variant named by the
PascalCase of the target table. -/
def outLines (r : RefBlock) : List Entry :=
  match r.lhs.compositions, r.rhs.compositions with
  | ff :: _, tf :: _ =>
      (match r.rel with
       | .One2One | .Many2One =>
           [Entry.line (outDerive (to_snake_case r.rhs.table) (to_pascal_case ff)
              (to_pascal_case tf) r.settings),
            Entry.line (to_pascal_case r.rhs.table ++ ",")]
       | _ => [])
  | _, _ => []

/-- The two relation-block lines one incoming relation of a supported
kind appends: a has-one (for `One2One`) or has-many (for `Many2One`)
attribute and the variant named by the PascalCase of the source
table. -/
def inLines (r : RefBlock) : List Entry :=
  match r.rel with
  | .One2One =>
      [Entry.line ("#[sea_orm(has_one = \"super::" ++ to_snake_case r.lhs.table ++
         "::Entity\")]"),
       Entry.line (to_pascal_case r.lhs.table ++ ",")]
  | .Many2One =>
      [Entry.line ("#[sea_orm(has_many = \"super::" ++ to_snake_case r.lhs.table ++
         "::Entity\")]"),
       Entry.line (to_pascal_case r.lhs.table ++ ",")]
  | _ => []

theorem foldlM_selfStep_ok (l : List RefBlock) (d : Nat) (hd : Option String)
    (es : List Entry) (bs : List Block)
    (h : ∀ r ∈ l, r.lhs.compositions ≠ [] ∧ r.rhs.compositions ≠ []) :
    ∃ bs2, List.foldlM selfStep (Block.node d hd es, bs) l =
      .ok (Block.node d hd (es ++ l.flatMap selfLines), bs2) := by
  induction l generalizing es bs with
  | nil => exact ⟨bs, by rw [List.foldlM_nil, List.flatMap_nil, List.append_nil]; rfl⟩
  | cons r rest ih =>
      obtain ⟨hl, hr⟩ := h r (List.mem_cons_self r rest)
      obtain ⟨ff, ft, hff⟩ := List.exists_cons_of_ne_nil hl
      obtain ⟨tf, tt, htf⟩ := List.exists_cons_of_ne_nil hr
      rw [List.foldlM_cons]
      have hstep : selfStep (Block.node d hd es, bs) r =
          .ok (Block.node d hd ((es ++ [Entry.line (selfDerive (to_pascal_case ff)
              (to_pascal_case tf) r.settings)]) ++ [Entry.line "SelfReferencing,"]),
            bs ++ selfLinkBlocks) := by
        simp [selfStep, unwrapHead, hff, htf, abortBind_ok, Block.line,
          Block.depth, Block.header, Block.entries]
      rw [hstep, abortBind_ok]
      obtain ⟨bs2, ih2⟩ := ih ((es ++ [Entry.line (selfDerive (to_pascal_case ff)
          (to_pascal_case tf) r.settings)]) ++ [Entry.line "SelfReferencing,"])
        (bs ++ selfLinkBlocks) (fun r2 hr2 => h r2 (List.mem_cons_of_mem _ hr2))
      refine ⟨bs2, ?_⟩
      rw [ih2]
      simp [selfLines, hff, htf, List.flatMap_cons, List.append_assoc]

theorem foldlM_outStep_ok (l : List RefBlock) (d : Nat) (hd : Option String)
    (es : List Entry) (bs : List Block)
    (h : ∀ r ∈ l, (r.lhs.compositions ≠ [] ∧ r.rhs.compositions ≠ []) ∧
      (r.rel = Relation.One2One ∨ r.rel = Relation.Many2One)) :
    ∃ bs2, List.foldlM outStep (Block.node d hd es, bs) l =
      .ok (Block.node d hd (es ++ l.flatMap outLines), bs2) := by
  induction l generalizing es bs with
  | nil => exact ⟨bs, by rw [List.foldlM_nil, List.flatMap_nil, List.append_nil]; rfl⟩
  | cons r rest ih =>
      obtain ⟨⟨hl, hr⟩, hk⟩ := h r (List.mem_cons_self r rest)
      obtain ⟨ff, ft, hff⟩ := List.exists_cons_of_ne_nil hl
      obtain ⟨tf, tt, htf⟩ := List.exists_cons_of_ne_nil hr
      rw [List.foldlM_cons]
      have hstep : outStep (Block.node d hd es, bs) r =
          .ok (Block.node d hd ((es ++ [Entry.line (outDerive
              (to_snake_case r.rhs.table) (to_pascal_case ff) (to_pascal_case tf)
              r.settings)]) ++ [Entry.line (to_pascal_case r.rhs.table ++ ",")]),
            bs ++ [relatedImplBlock (to_snake_case r.rhs.table)
              (to_pascal_case r.rhs.table)]) := by
        rcases hk with hk | hk <;>
          simp [outStep, unwrapHead, hff, htf, hk, abortBind_ok, Block.line,
            Block.depth, Block.header, Block.entries]
      rw [hstep, abortBind_ok]
      obtain ⟨bs2, ih2⟩ := ih ((es ++ [Entry.line (outDerive
          (to_snake_case r.rhs.table) (to_pascal_case ff) (to_pascal_case tf)
          r.settings)]) ++ [Entry.line (to_pascal_case r.rhs.table ++ ",")])
        (bs ++ [relatedImplBlock (to_snake_case r.rhs.table)
          (to_pascal_case r.rhs.table)])
        (fun r2 hr2 => h r2 (List.mem_cons_of_mem _ hr2))
      refine ⟨bs2, ?_⟩
      rw [ih2]
      rcases hk with hk | hk <;>
        simp [outLines, hff, htf, hk, List.flatMap_cons, List.append_assoc]

theorem foldlM_inStep_ok (l : List RefBlock) (d : Nat) (hd : Option String)
    (es : List Entry) (bs : List Block)
    (h : ∀ r ∈ l, r.rel = Relation.One2One ∨ r.rel = Relation.Many2One) :
    ∃ bs2, List.foldlM inStep (Block.node d hd es, bs) l =
      .ok (Block.node d hd (es ++ l.flatMap inLines), bs2) := by
  induction l generalizing es bs with
  | nil => exact ⟨bs, by rw [List.foldlM_nil, List.flatMap_nil, List.append_nil]; rfl⟩
  | cons r rest ih =>
      have hk := h r (List.mem_cons_self r rest)
      rw [List.foldlM_cons]
      have hstep : inStep (Block.node d hd es, bs) r =
          .ok (Block.node d hd ((es ++ [Entry.line ((if r.rel = Relation.One2One
              then "#[sea_orm(has_one = \"super::" else
                "#[sea_orm(has_many = \"super::") ++
              to_snake_case r.lhs.table ++ "::Entity\")]")]) ++
              [Entry.line (to_pascal_case r.lhs.table ++ ",")]),
            bs ++ [relatedImplBlock (to_snake_case r.lhs.table)
              (to_pascal_case r.lhs.table)]) := by
        rcases hk with hk | hk <;>
          simp [inStep, inDerive, hk, abortBind_ok, Block.line,
            Block.depth, Block.header, Block.entries]
      rw [hstep, abortBind_ok]
      obtain ⟨bs2, ih2⟩ := ih ((es ++ [Entry.line ((if r.rel = Relation.One2One
          then "#[sea_orm(has_one = \"super::" else
            "#[sea_orm(has_many = \"super::") ++
          to_snake_case r.lhs.table ++ "::Entity\")]")]) ++
          [Entry.line (to_pascal_case r.lhs.table ++ ",")])
        (bs ++ [relatedImplBlock (to_snake_case r.lhs.table)
          (to_pascal_case r.lhs.table)])
        (fun r2 hr2 => h r2 (List.mem_cons_of_mem _ hr2))
      refine ⟨bs2, ?_⟩
      rw [ih2]
      rcases hk with hk | hk <;>
        simp [inLines, hk, List.flatMap_cons, List.append_assoc]

/-- C5: the relation block of a table is built in the fixed order
self-relations, then outgoing relations, then incoming relations, each
group preserving the original relation-list order handed over by
`get_table_refs`; and every incoming `One2One` relation renders as a
has-one line while every incoming `Many2One` relation renders as a
has-many line. -/
theorem relation_block_fixed_order (ast : SemanticSchemaBlock) (tid : TableIdent)
    (rto rby rself : List RefBlock) (b0 : Block)
    (hpart : ast.get_table_refs tid = (rto, rby, rself))
    (hself : ∀ r ∈ rself, r.lhs.compositions ≠ [] ∧ r.rhs.compositions ≠ [])
    (hout : ∀ r ∈ rto, (r.lhs.compositions ≠ [] ∧ r.rhs.compositions ≠ []) ∧
      (r.rel = Relation.One2One ∨ r.rel = Relation.Many2One))
    (hin : ∀ r ∈ rby, r.rel = Relation.One2One ∨ r.rel = Relation.Many2One) :
    (∃ bs, buildRelBlock b0 rto rby rself =
      .ok (Block.node b0.depth b0.header
        (b0.entries ++ rself.flatMap selfLines ++ rto.flatMap outLines ++
          rby.flatMap inLines), bs)) ∧
    (∀ r : RefBlock, r.rel = Relation.One2One →
      inLines r = [Entry.line ("#[sea_orm(has_one = \"super::" ++
          to_snake_case r.lhs.table ++ "::Entity\")]"),
        Entry.line (to_pascal_case r.lhs.table ++ ",")]) ∧
    (∀ r : RefBlock, r.rel = Relation.Many2One →
      inLines r = [Entry.line ("#[sea_orm(has_many = \"super::" ++
          to_snake_case r.lhs.table ++ "::Entity\")]"),
        Entry.line (to_pascal_case r.lhs.table ++ ",")]) := by
  refine ⟨?_, ?_, ?_⟩
  · cases b0 with
    | node d hd es =>
      simp only [Block.depth, Block.header, Block.entries]
      obtain ⟨bs1, e1⟩ := foldlM_selfStep_ok rself d hd es [] hself
      obtain ⟨bs2, e2⟩ := foldlM_outStep_ok rto d hd
        (es ++ rself.flatMap selfLines) bs1 hout
      obtain ⟨bs3, e3⟩ := foldlM_inStep_ok rby d hd
        (es ++ rself.flatMap selfLines ++ rto.flatMap outLines) bs2 hin
      refine ⟨bs3, ?_⟩
      unfold buildRelBlock
      rw [e1, abortBind_ok, e2, abortBind_ok, e3]
  · intro r hk
    simp [inLines, hk]
  · intro r hk
    simp [inLines, hk]

/-- A self relation on `users` for the relation-order witness. -/
def orderWitSelfRel : RefBlock :=
  { rel := Relation.Many2One,
    lhs := { schema := none, table := "users", compositions := ["parent_id"] },
    rhs := { schema := none, table := "users", compositions := ["id"] },
    settings := none }

/-- An outgoing relation from `users` to `teams`. -/
def orderWitOutRel : RefBlock :=
  { rel := Relation.Many2One,
    lhs := { schema := none, table := "users", compositions := ["team_id"] },
    rhs := { schema := none, table := "teams", compositions := ["id"] },
    settings := none }

/-- An incoming one-to-one relation from `profiles` into `users`. -/
def orderWitInRel : RefBlock :=
  { rel := Relation.One2One,
    lhs := { schema := none, table := "profiles", compositions := ["user_id"] },
    rhs := { schema := none, table := "users", compositions := ["id"] },
    settings := none }

/-- An incoming many-to-one relation from `comments` into `users`. -/
def orderWitInRel2 : RefBlock :=
  { rel := Relation.Many2One,
    lhs := { schema := none, table := "comments", compositions := ["user_id"] },
    rhs := { schema := none, table := "users", compositions := ["id"] },
    settings := none }

/-- A schema holding all four witness relations around `users`. -/
def orderWitSchema : SemanticSchemaBlock :=
  { tables := [usersWitTable], enums := [],
    refs := [orderWitSelfRel, orderWitOutRel, orderWitInRel, orderWitInRel2] }

/-- Witness for the relation-order theorem on the concrete `users`
schema: the partition is the one `get_table_refs` computes there, and
the two incoming relations exercise has-one and has-many. -/
theorem relation_block_fixed_order_witness :
    (∃ bs, buildRelBlock (Block.new 2 (some "pub enum Relation"))
        [orderWitOutRel] [orderWitInRel, orderWitInRel2] [orderWitSelfRel] =
      .ok (Block.node (Block.new 2 (some "pub enum Relation")).depth
        (Block.new 2 (some "pub enum Relation")).header
        ((Block.new 2 (some "pub enum Relation")).entries ++
          [orderWitSelfRel].flatMap selfLines ++
          [orderWitOutRel].flatMap outLines ++
          [orderWitInRel, orderWitInRel2].flatMap inLines), bs)) ∧
    inLines orderWitInRel = [Entry.line ("#[sea_orm(has_one = \"super::" ++
        to_snake_case orderWitInRel.lhs.table ++ "::Entity\")]"),
      Entry.line (to_pascal_case orderWitInRel.lhs.table ++ ",")] ∧
    inLines orderWitInRel2 = [Entry.line ("#[sea_orm(has_many = \"super::" ++
        to_snake_case orderWitInRel2.lhs.table ++ "::Entity\")]"),
      Entry.line (to_pascal_case orderWitInRel2.lhs.table ++ ",")] :=
  ⟨(relation_block_fixed_order orderWitSchema { name := "users", schema := none }
      [orderWitOutRel] [orderWitInRel, orderWitInRel2] [orderWitSelfRel]
      (Block.new 2 (some "pub enum Relation")) rfl (by decide) (by decide)
      (by decide)).1,
   (relation_block_fixed_order orderWitSchema { name := "users", schema := none }
      [orderWitOutRel] [orderWitInRel, orderWitInRel2] [orderWitSelfRel]
      (Block.new 2 (some "pub enum Relation")) rfl (by decide) (by decide)
      (by decide)).2.1 orderWitInRel rfl,
   (relation_block_fixed_order orderWitSchema { name := "users", schema := none }
      [orderWitOutRel] [orderWitInRel, orderWitInRel2] [orderWitSelfRel]
      (Block.new 2 (some "pub enum Relation")) rfl (by decide) (by decide)
      (by decide)).2.2 orderWitInRel2 rfl⟩
